import Mathlib

/-!
Verification of the deploy S3 module (src/deploy/s3.rs) of the landscape2
repository.  The module deploys a local directory of website files to an S3
bucket: it first builds a snapshot of the objects already deployed (key and
last-modified timestamp, draining the paginated listing), then uploads every
local file that needs it (skipping the index document, hidden files, already
deployed logos, and up-to-date objects), and finally uploads the index
document, only when the general pass reported no failure.

The embedding below is shallow: timestamps are integers (the aws DateTime
type is totally ordered by seconds and subsecond nanoseconds), object keys
are strings, the S3 client and the local filesystem are replaced by explicit
data (per-file flags saying whether each fallible step succeeds), and the
concurrent buffered stream of the general pass is modelled as a list of
per-file outcomes that are all collected before aggregation, which matches
the collect-then-aggregate structure of the source.
-/

/-- Test whether the second character list is an initial segment of the
first.  This models the Rust method used on keys by the source, namely
str::starts_with. -/
def startsWithAux : List Char → List Char → Bool
  | _, [] => true
  | [], _ :: _ => false
  | c :: cs, d :: ds => if d = c then startsWithAux cs ds else false

/-- String version of startsWithAux, applied to the underlying characters. -/
def strStartsWith (s p : String) : Bool := startsWithAux s.data p.data

/-- Characters of the last path component: walk the characters, restarting
the accumulator at every forward slash. -/
def lastComponentAux : List Char → List Char → List Char
  | cur, [] => cur.reverse
  | cur, c :: rest =>
    if c = '/' then lastComponentAux [] rest else lastComponentAux (c :: cur) rest

/-- Last path component of a key, with components separated by a forward
slash.  Used to state the spec notion of a hidden file name. -/
def lastComponent (s : String) : String := String.mk (lastComponentAux [] s.data)

/-- File name of the index document (constant INDEX_DOCUMENT in the source). -/
def INDEX_DOCUMENT : String := "index.html"

/-- Key namespace of the logos objects in S3 (the logos key constant of the
source, with value "logos/"). -/
def logosKeyStart : String := "logos/"

/-- MIME type sent for the index document (mime TEXT_HTML in the source). -/
def TEXT_HTML : String := "text/html"

/-- Lookup in an association list from object keys to timestamps.  This
models lookup in the HashMap of deployed objects; insertion prepends, so
later insertions shadow earlier bindings, as HashMap insertion overwrites. -/
def mapLookup : List (String × Int) → String → Option Int
  | [], _ => none
  | (k, v) :: rest, key => if k = key then some v else mapLookup rest key

/-- A local filesystem entry discovered by the directory walk, together with
the outcome of each fallible operation the general pass may perform on it:
whether the metadata call succeeds, whether the body stream can be opened,
whether a MIME type can be inferred from the key, and whether the put call
to the store succeeds. -/
structure LocalFile where
  key : String
  isFile : Bool
  mtime : Int
  statOk : Bool
  bodyOk : Bool
  mimeOk : Bool
  putOk : Bool
deriving DecidableEq

/-- Error raised while processing one file of the general pass.  The
constructors record which failing operation of the source produced the
error and whether the rendered message carries the object key: the metadata
and body stream errors are raw io errors with no key attached, while the
content-type error message and the context added to the put error both
name the key. -/
inductive FileError where
  | statErr : FileError
  | bodyErr : FileError
  | mimeErr : String → FileError
  | putErr : String → FileError
deriving DecidableEq

/-- Object key carried by the rendered message of a per-file error, when
there is one. -/
def taggedKey : FileError → Option String
  | FileError.statErr => none
  | FileError.bodyErr => none
  | FileError.mimeErr k => some k
  | FileError.putErr k => some k

/-- Upload decision for one local file, the pure decision function of the
spec data model. -/
inductive Decision where
  | skipNotFile : Decision
  | skipIndex : Decision
  | skipHidden : Decision
  | skipDedup : Decision
  | skipUpToDate : Decision
  | upload : Decision
deriving DecidableEq

/-- The per-file upload decision, mirroring the branch structure of the
closure inside upload_files in the source: non-regular entries are skipped,
then the index document, then keys starting with a dot, then keys present
in the snapshot are skipped when under the logos namespace or when the
remote timestamp is at least the local modification timestamp; every other
file is uploaded. -/
def uploadDecision (deployed : List (String × Int)) (f : LocalFile) : Decision :=
  if f.isFile = false then Decision.skipNotFile
  else if f.key = INDEX_DOCUMENT then Decision.skipIndex
  else if strStartsWith f.key "." = true then Decision.skipHidden
  else
    match mapLookup deployed f.key with
    | some remote_ts =>
      if strStartsWith f.key logosKeyStart = true then Decision.skipDedup
      else if f.mtime ≤ remote_ts then Decision.skipUpToDate
      else Decision.upload
    | none => Decision.upload

/-- Upload section at the end of the per-file closure: open the body stream,
infer the content type from the key, then issue the put call.  The first
component lists the keys for which a put call is issued (the put is issued
once body and content type are available, even when it then fails). -/
def attemptUpload (f : LocalFile) : List String × Except FileError Unit :=
  if f.bodyOk = false then ([], Except.error FileError.bodyErr)
  else if f.mimeOk = false then ([], Except.error (FileError.mimeErr f.key))
  else if f.putOk = false then ([f.key], Except.error (FileError.putErr f.key))
  else ([f.key], Except.ok ())

/-- Processing of one walked entry by the general pass, mirroring the
source closure line by line: skip non-files, the index document and hidden
keys; for keys present in the snapshot, skip logos unconditionally, then
read the local modification time (a fallible metadata call) and skip when
the remote copy is at least as fresh; otherwise fall through to the upload
section. -/
def processFile (deployed : List (String × Int)) (f : LocalFile) :
    List String × Except FileError Unit :=
  if f.isFile = false then ([], Except.ok ())
  else if f.key = INDEX_DOCUMENT then ([], Except.ok ())
  else if strStartsWith f.key "." = true then ([], Except.ok ())
  else
    match mapLookup deployed f.key with
    | some remote_ts =>
      if strStartsWith f.key logosKeyStart = true then ([], Except.ok ())
      else if f.statOk = false then ([], Except.error FileError.statErr)
      else if f.mtime ≤ remote_ts then ([], Except.ok ())
      else attemptUpload f
    | none => attemptUpload f

/-- Keys put by the general pass, in walk order, over a list of entries. -/
def allFilePuts (deployed : List (String × Int)) : List LocalFile → List String
  | [] => []
  | f :: rest => (processFile deployed f).1 ++ allFilePuts deployed rest

/-- Per-file errors collected by the general pass, in walk order.  This
models the loop of the source that walks the collected results and pushes
every error into the combined report. -/
def collectErrors (deployed : List (String × Int)) : List LocalFile → List FileError
  | [] => []
  | f :: rest =>
    match (processFile deployed f).2 with
    | Except.error e => e :: collectErrors deployed rest
    | Except.ok _ => collectErrors deployed rest

/-- The upload_files component: process every walked entry, collect every
outcome, and fail with the combined list of per-file errors when at least
one was found.  The first component records the keys for which a put call
was issued. -/
def upload_files (deployed : List (String × Int)) (files : List LocalFile) :
    List String × Except (List FileError) Unit :=
  (allFilePuts deployed files,
   match collectErrors deployed files with
   | [] => Except.ok ()
   | e :: es => Except.error (e :: es))

/-- The local index document, with the outcome of each fallible operation
the publisher may perform: whether the body stream can be opened, whether
the metadata call succeeds, and whether the put call succeeds. -/
structure IndexFile where
  mtime : Int
  bodyOk : Bool
  statOk : Bool
  putOk : Bool
deriving DecidableEq

/-- Error raised by the index document publisher. -/
inductive IndexError where
  | bodyErr : IndexError
  | statErr : IndexError
  | putErr : IndexError
deriving DecidableEq

/-- Put call issued by the index document publisher: its key and the
content type sent. -/
structure IndexPut where
  key : String
  contentType : String
deriving DecidableEq

/-- The upload_index_document component, mirroring the source: build the
body stream from the local index document first (failing the run when it
cannot be opened), fix the content type to the HTML MIME type, then skip
when the snapshot holds a remote copy at least as fresh as local, and
otherwise issue the put call.  The first component is the put call issued,
when there is one. -/
def upload_index_document (deployed : List (String × Int)) (idx : IndexFile) :
    Option IndexPut × Except IndexError Unit :=
  if idx.bodyOk = false then (none, Except.error IndexError.bodyErr)
  else
    match mapLookup deployed INDEX_DOCUMENT with
    | some remote_ts =>
      if idx.statOk = false then (none, Except.error IndexError.statErr)
      else if idx.mtime ≤ remote_ts then (none, Except.ok ())
      else
        (some { key := INDEX_DOCUMENT, contentType := TEXT_HTML },
         if idx.putOk = true then Except.ok () else Except.error IndexError.putErr)
    | none =>
      (some { key := INDEX_DOCUMENT, contentType := TEXT_HTML },
       if idx.putOk = true then Except.ok () else Except.error IndexError.putErr)

/-- Failure of a whole deploy run: either the aggregate failure of the
general pass, or a standalone failure of the index document publisher. -/
inductive DeployError where
  | filesErr : List FileError → DeployError
  | indexErr : IndexError → DeployError

/-- Observable trace of one deploy run after the snapshot is built: the
keys put by the general pass, the put call issued for the index document
when there is one, and the overall result. -/
structure DeployTrace where
  puts : List String
  indexPut : Option IndexPut
  result : Except DeployError Unit

/-- The deploy driver after the snapshot is built, mirroring the source:
run the general pass over every walked entry, and run the index document
publisher only when the general pass returned no error.  Put calls issued
by the general pass stay in the trace even when the pass fails, since the
source collects every outcome before aggregating. -/
def deployRun (deployed : List (String × Int)) (files : List LocalFile)
    (idx : IndexFile) : DeployTrace :=
  match (upload_files deployed files).2 with
  | Except.error es =>
    { puts := (upload_files deployed files).1, indexPut := none,
      result := Except.error (DeployError.filesErr es) }
  | Except.ok _ =>
    match (upload_index_document deployed idx).2 with
    | Except.ok _ =>
      { puts := (upload_files deployed files).1,
        indexPut := (upload_index_document deployed idx).1, result := Except.ok () }
    | Except.error e =>
      { puts := (upload_files deployed files).1,
        indexPut := (upload_index_document deployed idx).1,
        result := Except.error (DeployError.indexErr e) }

/-- Every put call of a deploy run, general pass first, then the index
document put when one was issued. -/
def allPuts (t : DeployTrace) : List String :=
  t.puts ++ (match t.indexPut with | some p => [p.key] | none => [])

/-- Number of put calls of the run that target the given key. -/
def putCount (l : List String) (k : String) : Nat :=
  (l.filter (fun x => decide (x = k))).length

/-- One object of a listing page, both fields optional as in the store
response type. -/
structure S3Object where
  key : Option String
  last_modified : Option Int
deriving DecidableEq

/-- One response of the paginated listing: the objects of the page, the
truncation flag, and the continuation token for the next page. -/
structure ListOutput where
  contents : Option (List S3Object)
  is_truncated : Bool
  next_continuation_token : Option String
deriving DecidableEq

/-- Insertion of one listed object into the snapshot under construction:
objects missing the key or the last-modified timestamp are dropped. -/
def insertObj (m : List (String × Int)) (o : S3Object) : List (String × Int) :=
  match o.key with
  | none => m
  | some k =>
    match o.last_modified with
    | none => m
    | some t => (k, t) :: m

/-- Objects contributed by one listing response. -/
def pageObjects (out : ListOutput) : List S3Object :=
  match out.contents with
  | some objs => objs
  | none => []

/-- Listing loop of get_deployed_objects: send a request carrying the
current continuation token, fold the returned objects into the snapshot,
stop when the response is not truncated, and otherwise continue with the
token of the response.  The store is a function from the token sent to the
response received; the fuel argument makes the loop a total function, and a
run that completes returns the list of tokens sent together with the final
snapshot. -/
def listLoop (store : Option String → ListOutput) :
    Nat → Option String → List (String × Int) →
    Option (List (Option String) × List (String × Int))
  | 0, _, _ => none
  | Nat.succ fuel, token, m =>
    let out := store token
    let m2 := (pageObjects out).foldl insertObj m
    if out.is_truncated = false then some ([token], m2)
    else
      match listLoop store fuel out.next_continuation_token m2 with
      | none => none
      | some (toks, m3) => some (token :: toks, m3)

/-- The get_deployed_objects component: run the listing loop starting with
no continuation token and an empty snapshot. -/
def get_deployed_objects (store : Option String → ListOutput) (fuel : Nat) :
    Option (List (Option String) × List (String × Int)) :=
  listLoop store fuel none []

/-- A well-formed request trace: every request but the last got a truncated
response, each subsequent request carries the continuation token of the
previous response, and the final response is not truncated. -/
def tokensChained (store : Option String → ListOutput) : List (Option String) → Bool
  | [] => true
  | [t] => !(store t).is_truncated
  | t :: t2 :: rest =>
    (store t).is_truncated &&
    (if t2 = (store t).next_continuation_token then true else false) &&
    tokensChained store (t2 :: rest)

/-- All objects listed over a request trace, in listing order. -/
def listedObjects (store : Option String → ListOutput) (toks : List (Option String)) :
    List S3Object :=
  match toks with
  | [] => []
  | t :: rest => pageObjects (store t) ++ listedObjects store rest

/-- The listed objects that carry both a key and a last-modified timestamp,
as key and timestamp pairs. -/
def validPairs : List S3Object → List (String × Int)
  | [] => []
  | o :: rest =>
    match o.key with
    | none => validPairs rest
    | some k =>
      match o.last_modified with
      | none => validPairs rest
      | some t => (k, t) :: validPairs rest

/-- Lookup of the last binding of a key in a key and timestamp list. -/
def lookupLast (l : List (String × Int)) (k : String) : Option Int :=
  mapLookup l.reverse k

/-- First of two options that is present, if any. -/
def optOr (a b : Option Int) : Option Int :=
  match a with
  | some x => some x
  | none => b

/-- A key under the logos namespace does not start with a dot. -/
theorem logos_not_hidden (s : String) (h : strStartsWith s logosKeyStart = true) :
    strStartsWith s "." = false := by
  unfold strStartsWith logosKeyStart at *
  cases hd : s.data with
  | nil => rw [hd] at h; simp [startsWithAux] at h
  | cons c cs =>
    rw [hd] at h
    have hl : ("logos/").data = ['l', 'o', 'g', 'o', 's', '/'] := by decide
    rw [hl] at h
    simp [startsWithAux] at h
    have hdot : (".").data = ['.'] := by decide
    rw [hdot]
    simp [startsWithAux, ← h.1]

/-- A key under the logos namespace is not the index document key. -/
theorem logos_ne_index (s : String) (h : strStartsWith s logosKeyStart = true) :
    s ≠ INDEX_DOCUMENT := by
  intro he
  rw [he] at h
  have hx : strStartsWith INDEX_DOCUMENT logosKeyStart = false := by decide
  rw [hx] at h
  exact Bool.noConfusion h

/-- A key starting with a dot is not the index document key. -/
theorem hidden_ne_index (s : String) (h : strStartsWith s "." = true) :
    s ≠ INDEX_DOCUMENT := by
  intro he
  rw [he] at h
  have hx : strStartsWith INDEX_DOCUMENT "." = false := by decide
  rw [hx] at h
  exact Bool.noConfusion h

/-- C2: for a regular file that is not the index document, not hidden, not
under the logos namespace, and whose key is in the snapshot, the decision
is Skip-UpToDate exactly when the remote timestamp is at least the local
modification timestamp, and Upload otherwise. -/
theorem c2_staleness_rule (deployed : List (String × Int)) (f : LocalFile) (t : Int)
    (hfile : f.isFile = true) (hidx : f.key ≠ INDEX_DOCUMENT)
    (hhid : strStartsWith f.key "." = false)
    (hlogo : strStartsWith f.key logosKeyStart = false)
    (hsnap : mapLookup deployed f.key = some t) :
    (uploadDecision deployed f = Decision.skipUpToDate ↔ f.mtime ≤ t) ∧
    (t < f.mtime → uploadDecision deployed f = Decision.upload) := by
  unfold uploadDecision
  rw [hfile, hsnap]
  simp [hidx, hhid, hlogo]

/-- Concrete file used to instantiate the C2 theorem. -/
def fileC2 : LocalFile :=
  { key := "style.css", isFile := true, mtime := 3,
    statOk := true, bodyOk := true, mimeOk := true, putOk := true }

/-- Witness for C2 at a concrete snapshot and file. -/
theorem c2_staleness_rule_witness :
    (uploadDecision [("style.css", 5)] fileC2 = Decision.skipUpToDate ↔ fileC2.mtime ≤ 5) ∧
    ((5 : Int) < fileC2.mtime →
      uploadDecision [("style.css", 5)] fileC2 = Decision.upload) :=
  c2_staleness_rule [("style.css", 5)] fileC2 5 (by decide) (by decide)
    (by decide) (by decide) (by decide)

/-- C3: a file under the logos namespace whose key is in the snapshot is
skipped as deduplicated, whatever the timestamps, and no put call is
issued for it. -/
theorem c3_logos_dedup (deployed : List (String × Int)) (f : LocalFile) (t : Int)
    (hfile : f.isFile = true)
    (hlogo : strStartsWith f.key logosKeyStart = true)
    (hsnap : mapLookup deployed f.key = some t) :
    uploadDecision deployed f = Decision.skipDedup ∧ (processFile deployed f).1 = [] := by
  have hidx := logos_ne_index f.key hlogo
  have hhid := logos_not_hidden f.key hlogo
  constructor
  · unfold uploadDecision
    rw [hfile, hsnap]
    simp [hidx, hhid, hlogo]
  · unfold processFile
    rw [hfile, hsnap]
    simp [hidx, hhid, hlogo]

/-- Concrete file used to instantiate the C3 theorem. -/
def fileC3 : LocalFile :=
  { key := "logos/abc123.svg", isFile := true, mtime := 99,
    statOk := true, bodyOk := true, mimeOk := true, putOk := true }

/-- Witness for C3 at a concrete snapshot and file, with the local file
newer than the remote copy. -/
theorem c3_logos_dedup_witness :
    uploadDecision [("logos/abc123.svg", 1)] fileC3 = Decision.skipDedup ∧
    (processFile [("logos/abc123.svg", 1)] fileC3).1 = [] :=
  c3_logos_dedup [("logos/abc123.svg", 1)] fileC3 1 (by decide) (by decide) (by decide)

/-- C4: a regular file that is not hidden and not the index document, and
whose key is absent from the snapshot, is uploaded. -/
theorem c4_absent_upload (deployed : List (String × Int)) (f : LocalFile)
    (hfile : f.isFile = true) (hidx : f.key ≠ INDEX_DOCUMENT)
    (hhid : strStartsWith f.key "." = false)
    (hsnap : mapLookup deployed f.key = none) :
    uploadDecision deployed f = Decision.upload := by
  unfold uploadDecision
  rw [hfile, hsnap]
  simp [hidx, hhid]

/-- Concrete file used to instantiate the C4 theorem. -/
def fileC4 : LocalFile :=
  { key := "app.js", isFile := true, mtime := 3,
    statOk := true, bodyOk := true, mimeOk := true, putOk := true }

/-- Witness for C4 at a concrete snapshot and file. -/
theorem c4_absent_upload_witness :
    uploadDecision [("style.css", 5)] fileC4 = Decision.upload :=
  c4_absent_upload [("style.css", 5)] fileC4 (by decide) (by decide) (by decide) (by decide)

/-- Concrete hidden file inside a subdirectory: its file name starts with a
dot but its key does not. -/
def fileC5 : LocalFile :=
  { key := "dir/.hidden.css", isFile := true, mtime := 0,
    statOk := true, bodyOk := true, mimeOk := true, putOk := true }

/-- C5 fails on the code: the source checks whether the whole key starts
with a dot, so a hidden file inside a subdirectory is not skipped; with an
empty snapshot its decision is Upload and a put call is issued for it. -/
theorem c5_counterexample :
    strStartsWith (lastComponent fileC5.key) "." = true ∧
    uploadDecision [] fileC5 = Decision.upload ∧
    (processFile [] fileC5).1 = [fileC5.key] := by
  exact ⟨by decide, by decide, by decide⟩

/-- C5 amended: a regular file whose key starts with a dot is skipped as
hidden, whatever the snapshot, and no put call is issued for it; the check
applies to the whole key, not to the last path component, so hidden files
inside subdirectories are not covered. -/
theorem c5_hidden_skip (deployed : List (String × Int)) (f : LocalFile)
    (hfile : f.isFile = true) (hhid : strStartsWith f.key "." = true) :
    uploadDecision deployed f = Decision.skipHidden ∧ (processFile deployed f).1 = [] := by
  have hidx := hidden_ne_index f.key hhid
  constructor
  · unfold uploadDecision
    rw [hfile]
    simp [hidx, hhid]
  · unfold processFile
    rw [hfile]
    simp [hidx, hhid]

/-- Concrete top-level hidden file used to instantiate the amended C5
theorem. -/
def fileC5top : LocalFile :=
  { key := ".gitignore", isFile := true, mtime := 0,
    statOk := true, bodyOk := true, mimeOk := true, putOk := true }

/-- Witness for the amended C5 at a concrete snapshot and file. -/
theorem c5_hidden_skip_witness :
    uploadDecision [(".gitignore", 7)] fileC5top = Decision.skipHidden ∧
    (processFile [(".gitignore", 7)] fileC5top).1 = [] :=
  c5_hidden_skip [(".gitignore", 7)] fileC5top (by decide) (by decide)

/-- Decidable equality for results, used to evaluate concrete runs. -/
instance exceptDecEq {e a : Type} [DecidableEq e] [DecidableEq a] :
    DecidableEq (Except e a) := fun x y =>
  match x, y with
  | Except.ok u, Except.ok v =>
    if h : u = v then isTrue (h ▸ rfl) else isFalse (fun hh => h (Except.ok.inj hh))
  | Except.error u, Except.error v =>
    if h : u = v then isTrue (h ▸ rfl) else isFalse (fun hh => h (Except.error.inj hh))
  | Except.ok _, Except.error _ => isFalse (fun hh => Except.noConfusion hh)
  | Except.error _, Except.ok _ => isFalse (fun hh => Except.noConfusion hh)

/-- The collected error list is empty exactly when every per-file outcome
is a success. -/
theorem collectErrors_eq_nil_iff (d : List (String × Int)) (files : List LocalFile) :
    collectErrors d files = [] ↔ ∀ f ∈ files, (processFile d f).2 = Except.ok () := by
  induction files with
  | nil => simp [collectErrors]
  | cons f rest ih =>
    cases hr : (processFile d f).2 with
    | error e => simp [collectErrors, hr]
    | ok u => cases u; simp [collectErrors, hr, ih]

/-- Membership in the collected error list is exactly producing that error
on some file. -/
theorem mem_collectErrors (d : List (String × Int)) (files : List LocalFile)
    (e : FileError) :
    e ∈ collectErrors d files ↔ ∃ f ∈ files, (processFile d f).2 = Except.error e := by
  induction files with
  | nil => simp [collectErrors]
  | cons f rest ih =>
    cases hr : (processFile d f).2 with
    | error e2 =>
      have hlhs : collectErrors d (f :: rest) = e2 :: collectErrors d rest := by
        simp only [collectErrors, hr]
      rw [hlhs]
      constructor
      · intro hm
        rcases List.mem_cons.mp hm with rfl | hm2
        · exact ⟨f, List.mem_cons_self f rest, hr⟩
        · rcases ih.mp hm2 with ⟨g, hg, he⟩
          exact ⟨g, List.mem_cons_of_mem f hg, he⟩
      · rintro ⟨g, hg, he⟩
        rcases List.mem_cons.mp hg with rfl | hg2
        · rw [hr] at he
          exact List.mem_cons.mpr (Or.inl (Except.error.inj he).symm)
        · exact List.mem_cons.mpr (Or.inr (ih.mpr ⟨g, hg2, he⟩))
    | ok u =>
      cases u
      have hlhs : collectErrors d (f :: rest) = collectErrors d rest := by
        simp only [collectErrors, hr]
      rw [hlhs, ih]
      constructor
      · rintro ⟨g, hg, he⟩
        exact ⟨g, List.mem_cons_of_mem f hg, he⟩
      · rintro ⟨g, hg, he⟩
        rcases List.mem_cons.mp hg with rfl | hg2
        · rw [hr] at he
          exact absurd he (fun hh => Except.noConfusion hh)
        · exact ⟨g, hg2, he⟩

/-- The general pass succeeds exactly when every per-file outcome is a
success. -/
theorem upload_files_ok_iff (d : List (String × Int)) (files : List LocalFile) :
    (upload_files d files).2 = Except.ok () ↔
      ∀ f ∈ files, (processFile d f).2 = Except.ok () := by
  unfold upload_files
  cases hc : collectErrors d files with
  | nil =>
    simp
    exact (collectErrors_eq_nil_iff d files).mp hc
  | cons e es =>
    simp
    have hne : ¬ ∀ f ∈ files, (processFile d f).2 = Except.ok () := by
      intro hall
      have h2 := (collectErrors_eq_nil_iff d files).mpr hall
      rw [hc] at h2
      exact List.noConfusion h2
    push_neg at hne
    exact hne

/-- Keys put for a file of the pass appear among the keys put by the pass. -/
theorem mem_allFilePuts (d : List (String × Int)) (files : List LocalFile)
    (f : LocalFile) (hf : f ∈ files) (k : String) (hk : k ∈ (processFile d f).1) :
    k ∈ allFilePuts d files := by
  induction files with
  | nil => cases hf
  | cons g rest ih =>
    unfold allFilePuts
    rcases List.mem_cons.mp hf with h | h
    · subst h; exact List.mem_append_left _ hk
    · exact List.mem_append_right _ (ih h)

/-- Errors coming out of the upload section carry the key of the file, when
they carry a key at all. -/
theorem attemptUpload_error_tag (f : LocalFile) (e : FileError)
    (h : (attemptUpload f).2 = Except.error e) :
    taggedKey e = none ∨ taggedKey e = some f.key := by
  by_cases hb : f.bodyOk = false
  · simp [attemptUpload, hb] at h
    subst h; simp [taggedKey]
  · by_cases hm : f.mimeOk = false
    · simp [attemptUpload, hb, hm] at h
      subst h; simp [taggedKey]
    · by_cases hp : f.putOk = false
      · simp [attemptUpload, hb, hm, hp] at h
        subst h; simp [taggedKey]
      · simp [attemptUpload, hb, hm, hp] at h

/-- Per-file errors carry the key of their file, when they carry a key. -/
theorem processFile_error_tag (d : List (String × Int)) (f : LocalFile) (e : FileError)
    (h : (processFile d f).2 = Except.error e) :
    taggedKey e = none ∨ taggedKey e = some f.key := by
  by_cases h1 : f.isFile = false
  · simp [processFile, h1] at h
  · by_cases h2 : f.key = INDEX_DOCUMENT
    · simp [processFile, h1, h2] at h
    · by_cases h3 : strStartsWith f.key "." = true
      · simp [processFile, h1, h2, h3] at h
      · cases hl : mapLookup d f.key with
        | some remote_ts =>
          by_cases h4 : strStartsWith f.key logosKeyStart = true
          · simp [processFile, h1, h2, h3, hl, h4] at h
          · by_cases h5 : f.statOk = false
            · simp [processFile, h1, h2, h3, hl, h4, h5] at h
              subst h; simp [taggedKey]
            · by_cases h6 : f.mtime ≤ remote_ts
              · simp [processFile, h1, h2, h3, hl, h4, h5, h6] at h
              · have hh : (attemptUpload f).2 = Except.error e := by
                  rw [← h]
                  simp [processFile, h1, h2, h3, hl, h4, h5, h6]
                exact attemptUpload_error_tag f e hh
        | none =>
          have hh : (attemptUpload f).2 = Except.error e := by
            rw [← h]
            simp [processFile, h1, h2, h3, hl]
          exact attemptUpload_error_tag f e hh

/-- Concrete file whose metadata call fails: the general pass collects a
raw io error for it, with no object key attached. -/
def fileC6 : LocalFile :=
  { key := "style.css", isFile := true, mtime := 10,
    statOk := false, bodyOk := true, mimeOk := true, putOk := true }

/-- C6 fails on the code: the aggregate failure does combine every per-file
error, but a metadata error is pushed into the report as the raw io error,
which carries no object key, so not every collected error is tagged with
its key. -/
theorem c6_counterexample :
    (upload_files [("style.css", 5)] [fileC6]).2 = Except.error [FileError.statErr] ∧
    taggedKey FileError.statErr = none := ⟨rfl, rfl⟩

/-- C6 amended: the general pass collects every per-file outcome without
short-circuiting and fails exactly when at least one outcome is an error,
the aggregate combining all per-file errors; content-type and upload errors
are tagged with their object key, while metadata and body stream errors are
included untagged. -/
theorem c6_aggregation (d : List (String × Int)) (files : List LocalFile) :
    ((upload_files d files).2 = Except.ok () ↔
      ∀ f ∈ files, (processFile d f).2 = Except.ok ()) ∧
    (∀ es, (upload_files d files).2 = Except.error es →
      ∀ e, e ∈ es ↔ ∃ f ∈ files, (processFile d f).2 = Except.error e) ∧
    (∀ f ∈ files, ∀ k, k ∈ (processFile d f).1 → k ∈ (upload_files d files).1) ∧
    (∀ f ∈ files, ∀ e, (processFile d f).2 = Except.error e →
      taggedKey e = none ∨ taggedKey e = some f.key) := by
  refine ⟨upload_files_ok_iff d files, ?_, ?_, ?_⟩
  · intro es hes e
    have hagg : es = collectErrors d files := by
      unfold upload_files at hes
      cases hc : collectErrors d files with
      | nil => rw [hc] at hes; exact absurd hes (fun hh => Except.noConfusion hh)
      | cons e2 es2 =>
        rw [hc] at hes
        simp at hes
        rw [hes]
    rw [hagg]
    exact mem_collectErrors d files e
  · intro f hf k hk
    exact mem_allFilePuts d files f hf k hk
  · intro f _ e he
    exact processFile_error_tag d f e he

/-- Concrete file that succeeds, used to instantiate the amended C6
theorem. -/
def fileC6ok : LocalFile :=
  { key := "app.js", isFile := true, mtime := 3,
    statOk := true, bodyOk := true, mimeOk := true, putOk := true }

/-- Witness for the amended C6: on a run whose single file succeeds, the
success side of the aggregation equivalence applies. -/
theorem c6_aggregation_witness : (upload_files [] [fileC6ok]).2 = Except.ok () :=
  (c6_aggregation [] [fileC6ok]).1.mpr (by decide)

/-- The upload section only ever puts the key of its own file. -/
theorem attemptUpload_puts (f : LocalFile) (k : String)
    (hk : k ∈ (attemptUpload f).1) : k = f.key := by
  by_cases hb : f.bodyOk = false
  · simp [attemptUpload, hb] at hk
  · by_cases hm : f.mimeOk = false
    · simp [attemptUpload, hb, hm] at hk
    · by_cases hp : f.putOk = false
      · simp [attemptUpload, hb, hm, hp] at hk
        exact hk
      · simp [attemptUpload, hb, hm, hp] at hk
        exact hk

/-- A put call issued for a walked entry targets the key of that entry,
and only entries whose key differs from the index document reach a put. -/
theorem processFile_puts (d : List (String × Int)) (f : LocalFile) (k : String)
    (hk : k ∈ (processFile d f).1) : k = f.key ∧ f.key ≠ INDEX_DOCUMENT := by
  by_cases h1 : f.isFile = false
  · simp [processFile, h1] at hk
  · by_cases h2 : f.key = INDEX_DOCUMENT
    · simp [processFile, h1, h2] at hk
    · refine ⟨?_, h2⟩
      by_cases h3 : strStartsWith f.key "." = true
      · simp [processFile, h1, h2, h3] at hk
      · cases hl : mapLookup d f.key with
        | some remote_ts =>
          by_cases h4 : strStartsWith f.key logosKeyStart = true
          · simp [processFile, h1, h2, h3, hl, h4] at hk
          · by_cases h5 : f.statOk = false
            · simp [processFile, h1, h2, h3, hl, h4, h5] at hk
            · by_cases h6 : f.mtime ≤ remote_ts
              · simp [processFile, h1, h2, h3, hl, h4, h5, h6] at hk
              · have hh : k ∈ (attemptUpload f).1 := by
                  have : (processFile d f).1 = (attemptUpload f).1 := by
                    simp [processFile, h1, h2, h3, hl, h4, h5, h6]
                  rw [← this]
                  exact hk
                exact attemptUpload_puts f k hh
        | none =>
          have hh : k ∈ (attemptUpload f).1 := by
            have : (processFile d f).1 = (attemptUpload f).1 := by
              simp [processFile, h1, h2, h3, hl]
            rw [← this]
            exact hk
          exact attemptUpload_puts f k hh

/-- The general pass never issues a put call for the index document. -/
theorem index_not_in_allFilePuts (d : List (String × Int)) (files : List LocalFile) :
    INDEX_DOCUMENT ∉ allFilePuts d files := by
  induction files with
  | nil => simp [allFilePuts]
  | cons f rest ih =>
    unfold allFilePuts
    intro hmem
    rcases List.mem_append.mp hmem with h | h
    · rcases processFile_puts d f INDEX_DOCUMENT h with ⟨hk, hne⟩
      exact hne hk.symm
    · exact ih h

/-- The put trace of a deploy run is exactly the put trace of the general
pass. -/
theorem deployRun_puts (d : List (String × Int)) (files : List LocalFile)
    (idx : IndexFile) : (deployRun d files idx).puts = allFilePuts d files := by
  unfold deployRun
  cases h1 : (upload_files d files).2 with
  | error es => simp [upload_files]
  | ok u =>
    cases h2 : (upload_index_document d idx).2 with
    | error e => simp [upload_files]
    | ok v => simp [upload_files]

/-- When the general pass fails, the publisher is not run and no index put
is issued. -/
theorem deployRun_indexPut_of_error (d : List (String × Int)) (files : List LocalFile)
    (idx : IndexFile) (es : List FileError)
    (h : (upload_files d files).2 = Except.error es) :
    (deployRun d files idx).indexPut = none := by
  unfold deployRun
  rw [h]

/-- When the general pass succeeds, the index put of the run is the put of
the publisher. -/
theorem deployRun_indexPut_of_ok (d : List (String × Int)) (files : List LocalFile)
    (idx : IndexFile) (h : (upload_files d files).2 = Except.ok ()) :
    (deployRun d files idx).indexPut = (upload_index_document d idx).1 := by
  unfold deployRun
  rw [h]
  cases h2 : (upload_index_document d idx).2 with
  | error e => rfl
  | ok v => rfl

/-- Put counts add over concatenation of put traces. -/
theorem putCount_append (a b : List String) (k : String) :
    putCount (a ++ b) k = putCount a k + putCount b k := by
  simp [putCount, List.filter_append]

/-- A key absent from a put trace has put count zero. -/
theorem putCount_eq_zero (l : List String) (k : String) (h : k ∉ l) :
    putCount l k = 0 := by
  have hnil : l.filter (fun x => decide (x = k)) = [] := by
    rw [List.filter_eq_nil_iff]
    intro a ha hak
    have : a = k := of_decide_eq_true hak
    rw [this] at ha
    exact h ha
  simp [putCount, hnil]

/-- A put issued by the index document publisher targets the index key and
carries the fixed HTML content type. -/
theorem upload_index_document_put (d : List (String × Int)) (idx : IndexFile)
    (p : IndexPut) (h : (upload_index_document d idx).1 = some p) :
    p.key = INDEX_DOCUMENT ∧ p.contentType = TEXT_HTML := by
  by_cases hb : idx.bodyOk = false
  · simp [upload_index_document, hb] at h
  · cases hl : mapLookup d INDEX_DOCUMENT with
    | some remote_ts =>
      by_cases hs : idx.statOk = false
      · simp [upload_index_document, hb, hl, hs] at h
      · by_cases hle : idx.mtime ≤ remote_ts
        · simp [upload_index_document, hb, hl, hs, hle] at h
        · simp [upload_index_document, hb, hl, hs, hle] at h
          rw [← h]
          exact ⟨rfl, rfl⟩
    | none =>
      simp [upload_index_document, hb, hl] at h
      rw [← h]
      exact ⟨rfl, rfl⟩

/-- C1: the index document is never put by the general pass; when any
per-file outcome of the general pass is an error, no index put is issued;
an index put implies the general pass succeeded; the run puts the index
document at most once, and exactly once when the general pass succeeded
and the publisher issued its put. -/
theorem c1_entry_document_last (d : List (String × Int)) (files : List LocalFile)
    (idx : IndexFile) :
    INDEX_DOCUMENT ∉ (deployRun d files idx).puts ∧
    ((∃ f ∈ files, ∃ e, (processFile d f).2 = Except.error e) →
      (deployRun d files idx).indexPut = none) ∧
    ((deployRun d files idx).indexPut ≠ none →
      (upload_files d files).2 = Except.ok ()) ∧
    putCount (allPuts (deployRun d files idx)) INDEX_DOCUMENT ≤ 1 ∧
    ((upload_files d files).2 = Except.ok () →
      ∀ p, (upload_index_document d idx).1 = some p →
        putCount (allPuts (deployRun d files idx)) INDEX_DOCUMENT = 1) := by
  have hputs := deployRun_puts d files idx
  have hnotin : INDEX_DOCUMENT ∉ (deployRun d files idx).puts := by
    rw [hputs]
    exact index_not_in_allFilePuts d files
  have hzero : putCount (deployRun d files idx).puts INDEX_DOCUMENT = 0 :=
    putCount_eq_zero _ _ hnotin
  refine ⟨hnotin, ?_, ?_, ?_, ?_⟩
  · rintro ⟨f, hf, e, he⟩
    cases hres : (upload_files d files).2 with
    | error es => exact deployRun_indexPut_of_error d files idx es hres
    | ok u =>
      cases u
      have hall := (upload_files_ok_iff d files).mp hres
      have := hall f hf
      rw [he] at this
      exact absurd this (fun hh => Except.noConfusion hh)
  · intro hip
    cases hres : (upload_files d files).2 with
    | error es =>
      exact absurd (deployRun_indexPut_of_error d files idx es hres) hip
    | ok u => cases u; rfl
  · unfold allPuts
    rw [putCount_append, hzero]
    cases hip : (deployRun d files idx).indexPut with
    | none => simp [putCount]
    | some p =>
      simp [putCount]
      exact le_trans (List.length_filter_le _ _) (by simp)
  · intro hok p hp
    unfold allPuts
    rw [putCount_append, hzero]
    rw [deployRun_indexPut_of_ok d files idx hok, hp]
    have hkey := (upload_index_document_put d idx p hp).1
    simp [putCount, hkey, INDEX_DOCUMENT]

/-- Concrete file whose content type cannot be inferred, failing the
general pass. -/
def fileC1bad : LocalFile :=
  { key := "weird", isFile := true, mtime := 0,
    statOk := true, bodyOk := true, mimeOk := false, putOk := true }

/-- Concrete index document used to instantiate the C1 theorem. -/
def idxC1 : IndexFile :=
  { mtime := 0, bodyOk := true, statOk := true, putOk := true }

/-- Witness for C1: on a run with one failing file, no index put is
issued. -/
theorem c1_entry_document_last_witness :
    (deployRun [] [fileC1bad] idxC1).indexPut = none :=
  (c1_entry_document_last [] [fileC1bad] idxC1).2.1
    ⟨fileC1bad, by decide, FileError.mimeErr "weird", by decide⟩

/-- C9: every put issued by the index document publisher carries exactly
the HTML content type and targets the index key; when the snapshot holds
the index key with a remote timestamp at least the local one, no put is
issued; and when the local copy is strictly newer and the local reads
succeed, the publisher puts the index document with the fixed content
type. -/
theorem c9_publisher_staleness (d : List (String × Int)) (idx : IndexFile) :
    (∀ p, (upload_index_document d idx).1 = some p →
      p.contentType = TEXT_HTML ∧ p.key = INDEX_DOCUMENT) ∧
    (∀ t, mapLookup d INDEX_DOCUMENT = some t → idx.mtime ≤ t →
      (upload_index_document d idx).1 = none) ∧
    (idx.bodyOk = true → idx.statOk = true →
      ∀ t, mapLookup d INDEX_DOCUMENT = some t → ¬(idx.mtime ≤ t) →
        (upload_index_document d idx).1 =
          some { key := INDEX_DOCUMENT, contentType := TEXT_HTML }) := by
  refine ⟨?_, ?_, ?_⟩
  · intro p hp
    have h := upload_index_document_put d idx p hp
    exact ⟨h.2, h.1⟩
  · intro t ht hle
    by_cases hb : idx.bodyOk = false
    · simp [upload_index_document, hb]
    · by_cases hs : idx.statOk = false
      · simp [upload_index_document, hb, ht, hs]
      · simp [upload_index_document, hb, ht, hs, hle]
  · intro hb hs t ht hlt
    have hb2 : ¬(idx.bodyOk = false) := by simp [hb]
    have hs2 : ¬(idx.statOk = false) := by simp [hs]
    simp [upload_index_document, hb2, ht, hs2, hlt]

/-- Concrete index document older than the remote copy, used to
instantiate the C9 theorem. -/
def idxC9 : IndexFile :=
  { mtime := 4, bodyOk := true, statOk := true, putOk := true }

/-- Witness for C9: with a remote index copy at least as fresh as local,
no index put is issued. -/
theorem c9_publisher_staleness_witness :
    (upload_index_document [("index.html", 9)] idxC9).1 = none :=
  (c9_publisher_staleness [("index.html", 9)] idxC9).2.1 9 (by decide) (by decide)

/-- C10: the publisher opens the body stream of the local index document
before the staleness check, so when the local index document cannot be
opened the publisher errors with no put whatever the snapshot holds, and a
successful outcome is only possible when the local index document could be
opened. -/
theorem c10_body_before_staleness (d : List (String × Int)) (idx : IndexFile) :
    (idx.bodyOk = false →
      (upload_index_document d idx).1 = none ∧
      (upload_index_document d idx).2 = Except.error IndexError.bodyErr) ∧
    ((upload_index_document d idx).2 = Except.ok () → idx.bodyOk = true) := by
  constructor
  · intro hb
    constructor <;> simp [upload_index_document, hb]
  · intro hok
    by_cases hb : idx.bodyOk = false
    · simp [upload_index_document, hb] at hok
    · cases hbv : idx.bodyOk with
      | false => exact absurd hbv hb
      | true => rfl

/-- Concrete index document that cannot be opened, used to instantiate the
C10 theorem. -/
def idxC10 : IndexFile :=
  { mtime := 0, bodyOk := false, statOk := true, putOk := true }

/-- Witness for C10: with an unreadable local index document, the
publisher errors and issues no put even though the snapshot holds a much
fresher remote copy. -/
theorem c10_body_before_staleness_witness :
    (upload_index_document [("index.html", 100)] idxC10).1 = none ∧
    (upload_index_document [("index.html", 100)] idxC10).2 =
      Except.error IndexError.bodyErr :=
  (c10_body_before_staleness [("index.html", 100)] idxC10).1 rfl

/-- Lookup distributes over appended association lists, preferring the
first list. -/
theorem mapLookup_append (a b : List (String × Int)) (k : String) :
    mapLookup (a ++ b) k = optOr (mapLookup a k) (mapLookup b k) := by
  induction a with
  | nil => simp [mapLookup, optOr]
  | cons p rest ih =>
    cases p with
    | mk k0 v0 =>
      by_cases hk : k0 = k
      · simp [mapLookup, hk, optOr]
      · simp [mapLookup, hk, ih]

/-- Last-binding lookup on a cons: the tail wins over the head. -/
theorem lookupLast_cons (p : String × Int) (l : List (String × Int)) (k : String) :
    lookupLast (p :: l) k =
      optOr (lookupLast l k) (if p.1 = k then some p.2 else none) := by
  cases p with
  | mk k0 v0 =>
    unfold lookupLast
    rw [List.reverse_cons, mapLookup_append]
    simp [mapLookup]

/-- Choice of the first present option is associative. -/
theorem optOr_assoc (a b c : Option Int) : optOr (optOr a b) c = optOr a (optOr b c) := by
  cases a <;> rfl

/-- The second option is the identity on the right of the choice. -/
theorem optOr_none (a : Option Int) : optOr a none = a := by
  cases a <;> rfl

/-- Folding listed objects into the snapshot looks up as the last valid
binding of the page, falling back to the accumulator. -/
theorem foldl_insertObj_lookup (objs : List S3Object) :
    ∀ (acc : List (String × Int)) (k : String),
      mapLookup (objs.foldl insertObj acc) k =
        optOr (lookupLast (validPairs objs) k) (mapLookup acc k) := by
  induction objs with
  | nil => intro acc k; simp [validPairs, lookupLast, mapLookup, optOr]
  | cons o rest ih =>
    intro acc k
    rw [List.foldl_cons]
    cases hok : o.key with
    | none =>
      have h1 : insertObj acc o = acc := by simp [insertObj, hok]
      have h2 : validPairs (o :: rest) = validPairs rest := by simp [validPairs, hok]
      rw [h1, h2, ih acc k]
    | some k0 =>
      cases hot : o.last_modified with
      | none =>
        have h1 : insertObj acc o = acc := by simp [insertObj, hok, hot]
        have h2 : validPairs (o :: rest) = validPairs rest := by
          simp [validPairs, hok, hot]
        rw [h1, h2, ih acc k]
      | some t0 =>
        have h1 : insertObj acc o = (k0, t0) :: acc := by simp [insertObj, hok, hot]
        have h2 : validPairs (o :: rest) = (k0, t0) :: validPairs rest := by
          simp [validPairs, hok, hot]
        rw [h1, h2, ih ((k0, t0) :: acc) k, lookupLast_cons]
        by_cases hk : k0 = k
        · simp only [hk, if_pos rfl, mapLookup]
          cases lookupLast (validPairs rest) k <;> simp [optOr, mapLookup]
        · simp only [mapLookup, if_neg hk]
          cases lookupLast (validPairs rest) k <;> simp [optOr]

/-- Valid pairs distribute over appended object lists. -/
theorem validPairs_append (a b : List S3Object) :
    validPairs (a ++ b) = validPairs a ++ validPairs b := by
  induction a with
  | nil => simp [validPairs]
  | cons o rest ih =>
    cases hok : o.key with
    | none => simp [validPairs, hok, ih]
    | some k0 =>
      cases hot : o.last_modified with
      | none => simp [validPairs, hok, hot, ih]
      | some t0 => simp [validPairs, hok, hot, ih]

/-- Last-binding lookup over an appended list prefers the second list. -/
theorem lookupLast_append (a b : List (String × Int)) (k : String) :
    lookupLast (a ++ b) k = optOr (lookupLast b k) (lookupLast a k) := by
  unfold lookupLast
  rw [List.reverse_append, mapLookup_append]

/-- Invariant of the listing loop: a completed run sent its given token
first, chained every further token from the previous response, stopped at
the first non-truncated response, and its snapshot looks up as the last
valid listed binding, falling back to the accumulator. -/
theorem listLoop_spec (store : Option String → ListOutput) :
    ∀ (fuel : Nat) (token : Option String) (acc : List (String × Int))
      (toks : List (Option String)) (m : List (String × Int)),
      listLoop store fuel token acc = some (toks, m) →
      toks.head? = some token ∧
      tokensChained store toks = true ∧
      ∀ k, mapLookup m k =
        optOr (lookupLast (validPairs (listedObjects store toks)) k)
          (mapLookup acc k) := by
  intro fuel
  induction fuel with
  | zero => intro token acc toks m h; exact absurd h (by simp [listLoop])
  | succ n ih =>
    intro token acc toks m h
    simp only [listLoop] at h
    cases htr : (store token).is_truncated with
    | false =>
      rw [htr] at h
      simp at h
      rcases h with ⟨htoks, hm⟩
      subst htoks
      refine ⟨rfl, ?_, ?_⟩
      · simp [tokensChained, htr]
      · intro k
        rw [← hm]
        have := foldl_insertObj_lookup (pageObjects (store token)) acc k
        rw [this]
        simp [listedObjects]
    | true =>
      rw [htr] at h
      simp at h
      cases hrec : listLoop store n (store token).next_continuation_token
          ((pageObjects (store token)).foldl insertObj acc) with
      | none => rw [hrec] at h; exact absurd h (by simp)
      | some pr =>
        cases pr with
        | mk toks2 m3 =>
          rw [hrec] at h
          simp at h
          rcases h with ⟨htoks, hm⟩
          subst htoks
          subst hm
          rcases ih (store token).next_continuation_token _ toks2 m3 hrec with
            ⟨hhead, hchain, hlook⟩
          cases toks2 with
          | nil => exact absurd hhead (by simp)
          | cons t2 rest2 =>
            have ht2 : t2 = (store token).next_continuation_token := by
              simpa using hhead
            refine ⟨rfl, ?_, ?_⟩
            · simp [tokensChained, htr, ht2]
              rw [← ht2]
              exact hchain
            · intro k
              rw [hlook k,
                foldl_insertObj_lookup (pageObjects (store token)) acc k]
              have hlist : listedObjects store (token :: t2 :: rest2) =
                  pageObjects (store token) ++ listedObjects store (t2 :: rest2) := rfl
              rw [hlist, validPairs_append, lookupLast_append, optOr_assoc]

/-- C7: a completed run of the remote state lister sends its first request
with no continuation token, keeps requesting pages while the store reports
truncation passing each continuation token along, stops at the first
non-truncated response, and its snapshot maps a key to a timestamp exactly
when some listed object carried both that key and a timestamp, the last
such listed binding winning. -/
theorem c7_lister_drains (store : Option String → ListOutput) (fuel : Nat)
    (toks : List (Option String)) (m : List (String × Int))
    (h : get_deployed_objects store fuel = some (toks, m)) :
    toks.head? = some none ∧
    tokensChained store toks = true ∧
    ∀ k, mapLookup m k = lookupLast (validPairs (listedObjects store toks)) k := by
  rcases listLoop_spec store fuel none [] toks m h with ⟨hhead, hchain, hlook⟩
  refine ⟨hhead, hchain, ?_⟩
  intro k
  rw [hlook k]
  simp [mapLookup, optOr_none]

/-- Concrete two-page store used to instantiate the C7 theorem: the first
page is truncated and holds one valid object and one object with no key,
the second page ends the listing. -/
def storeC7 : Option String → ListOutput := fun t =>
  match t with
  | none =>
    { contents := some [ { key := some "a.js", last_modified := some 1 },
                         { key := none, last_modified := some 5 } ],
      is_truncated := true, next_continuation_token := some "tok1" }
  | some _ =>
    { contents := some [ { key := some "logos/x.svg", last_modified := some 2 } ],
      is_truncated := false, next_continuation_token := none }

/-- Witness for C7 on the concrete two-page store: the run drains both
pages and the snapshot holds the two valid objects. -/
theorem c7_lister_drains_witness :
    ([none, some "tok1"] : List (Option String)).head? = some none ∧
    tokensChained storeC7 [none, some "tok1"] = true ∧
    mapLookup [("logos/x.svg", 2), ("a.js", 1)] "a.js" =
      lookupLast (validPairs (listedObjects storeC7 [none, some "tok1"])) "a.js" := by
  have h := c7_lister_drains storeC7 2 [none, some "tok1"]
    [("logos/x.svg", 2), ("a.js", 1)] (by rfl)
  exact ⟨h.1, h.2.1, h.2.2 "a.js"⟩

/-- A successful upload section issued exactly the put of its file key. -/
theorem attemptUpload_ok_puts (f : LocalFile)
    (h : (attemptUpload f).2 = Except.ok ()) : (attemptUpload f).1 = [f.key] := by
  by_cases hb : f.bodyOk = false
  · simp [attemptUpload, hb] at h
  · by_cases hm : f.mimeOk = false
    · simp [attemptUpload, hb, hm] at h
    · by_cases hp : f.putOk = false
      · simp [attemptUpload, hb, hm, hp] at h
      · simp [attemptUpload, hb, hm, hp]

/-- When every entry of the second run issues no put, the whole second
pass issues no put. -/
theorem allFilePuts_nil (d : List (String × Int)) (files : List LocalFile)
    (h : ∀ f ∈ files, (processFile d f).1 = []) : allFilePuts d files = [] := by
  induction files with
  | nil => rfl
  | cons f rest ih =>
    unfold allFilePuts
    rw [h f (List.mem_cons_self f rest), ih (fun g hg => h g (List.mem_cons_of_mem f hg))]
    rfl

/-- Second-run skip for one entry: when its first-run outcome succeeded,
every remote object survived with a timestamp no older, and every key the
first run put is now remote with a timestamp at least the local one, then
the second run issues no put for that entry. -/
theorem run2_file_no_put (snap1 snap2 : List (String × Int)) (f : LocalFile)
    (h1 : (processFile snap1 f).2 = Except.ok ())
    (h2 : ∀ k t, mapLookup snap1 k = some t → ∃ u, mapLookup snap2 k = some u ∧ t ≤ u)
    (h3 : (processFile snap1 f).1 ≠ [] →
      ∃ u, mapLookup snap2 f.key = some u ∧ f.mtime ≤ u) :
    (processFile snap2 f).1 = [] := by
  by_cases hf : f.isFile = false
  · simp [processFile, hf]
  · by_cases hidx : f.key = INDEX_DOCUMENT
    · simp [processFile, hf, hidx]
    · by_cases hhid : strStartsWith f.key "." = true
      · simp [processFile, hf, hidx, hhid]
      · cases hl1 : mapLookup snap1 f.key with
        | some t =>
          rcases h2 f.key t hl1 with ⟨u, hl2, htu⟩
          by_cases hlogo : strStartsWith f.key logosKeyStart = true
          · simp [processFile, hf, hidx, hhid, hl2, hlogo]
          · by_cases hstat : f.statOk = false
            · simp [processFile, hf, hidx, hhid, hl1, hlogo, hstat] at h1
            · by_cases hle : f.mtime ≤ t
              · have hle2 : f.mtime ≤ u := le_trans hle htu
                simp [processFile, hf, hidx, hhid, hl2, hlogo, hstat, hle2]
              · have hatt : (processFile snap1 f).2 = (attemptUpload f).2 := by
                  simp [processFile, hf, hidx, hhid, hl1, hlogo, hstat, hle]
                have hput : (processFile snap1 f).1 = [f.key] := by
                  have hok : (attemptUpload f).2 = Except.ok () := by
                    rw [← hatt]; exact h1
                  have := attemptUpload_ok_puts f hok
                  rw [← this]
                  simp [processFile, hf, hidx, hhid, hl1, hlogo, hstat, hle]
                rcases h3 (by rw [hput]; exact List.cons_ne_nil _ _) with ⟨u2, hl2b, hmu⟩
                by_cases hstat2 : f.statOk = false
                · exact absurd hstat2 hstat
                · simp [processFile, hf, hidx, hhid, hl2b, hlogo, hstat2, hmu]
        | none =>
          have hatt : (processFile snap1 f).2 = (attemptUpload f).2 := by
            simp [processFile, hf, hidx, hhid, hl1]
          have hput : (processFile snap1 f).1 = [f.key] := by
            have hok : (attemptUpload f).2 = Except.ok () := by
              rw [← hatt]; exact h1
            have := attemptUpload_ok_puts f hok
            rw [← this]
            simp [processFile, hf, hidx, hhid, hl1]
          rcases h3 (by rw [hput]; exact List.cons_ne_nil _ _) with ⟨u2, hl2b, hmu⟩
          by_cases hlogo : strStartsWith f.key logosKeyStart = true
          · simp [processFile, hf, hidx, hhid, hl2b, hlogo]
          · by_cases hstat : f.statOk = false
            · simp [processFile, hf, hidx, hhid, hl2b, hlogo, hstat]
            · simp [processFile, hf, hidx, hhid, hl2b, hlogo, hstat, hmu]

/-- Second-run skip for the index document: when the first publisher run
succeeded, remote objects survived with timestamps no older, and a put it
issued left the remote index at least as fresh as local, the second
publisher run issues no put. -/
theorem run2_index_no_put (snap1 snap2 : List (String × Int)) (idx : IndexFile)
    (h1 : (upload_index_document snap1 idx).2 = Except.ok ())
    (h2 : ∀ k t, mapLookup snap1 k = some t → ∃ u, mapLookup snap2 k = some u ∧ t ≤ u)
    (h3 : (upload_index_document snap1 idx).1 ≠ none →
      ∃ u, mapLookup snap2 INDEX_DOCUMENT = some u ∧ idx.mtime ≤ u) :
    (upload_index_document snap2 idx).1 = none := by
  by_cases hb : idx.bodyOk = false
  · simp [upload_index_document, hb] at h1
  · cases hl1 : mapLookup snap1 INDEX_DOCUMENT with
    | some t =>
      by_cases hs : idx.statOk = false
      · simp [upload_index_document, hb, hl1, hs] at h1
      · rcases h2 INDEX_DOCUMENT t hl1 with ⟨u, hl2, htu⟩
        by_cases hle : idx.mtime ≤ t
        · have hle2 : idx.mtime ≤ u := le_trans hle htu
          simp [upload_index_document, hb, hl2, hs, hle2]
        · have hsome : (upload_index_document snap1 idx).1 ≠ none := by
            simp [upload_index_document, hb, hl1, hs, hle]
          rcases h3 hsome with ⟨u2, hl2b, hmu⟩
          simp [upload_index_document, hb, hl2b, hs, hmu]
    | none =>
      have hsome : (upload_index_document snap1 idx).1 ≠ none := by
        simp [upload_index_document, hb, hl1]
      rcases h3 hsome with ⟨u2, hl2b, hmu⟩
      by_cases hs : idx.statOk = false
      · simp [upload_index_document, hb, hl2b, hs]
      · simp [upload_index_document, hb, hl2b, hs, hmu]

/-- A successful deploy run means both phases succeeded. -/
theorem deployRun_ok (d : List (String × Int)) (files : List LocalFile)
    (idx : IndexFile) (h : (deployRun d files idx).result = Except.ok ()) :
    (upload_files d files).2 = Except.ok () ∧
    (upload_index_document d idx).2 = Except.ok () := by
  unfold deployRun at h
  cases h1 : (upload_files d files).2 with
  | error es => rw [h1] at h; simp at h
  | ok u =>
    cases u
    cases h2 : (upload_index_document d idx).2 with
    | error e => rw [h1, h2] at h; simp at h
    | ok v => cases v; exact ⟨rfl, rfl⟩

/-- C8: idempotence of a successful deploy.  When a first run over the
first snapshot succeeds, every remote object survives into the second
snapshot with a timestamp no older, and every object the first run put is
in the second snapshot with a timestamp at least the local modification
time, then a second run over the second snapshot issues zero put calls,
in the general pass and for the index document alike. -/
theorem c8_idempotent (snap1 snap2 : List (String × Int)) (files : List LocalFile)
    (idx : IndexFile)
    (hok : (deployRun snap1 files idx).result = Except.ok ())
    (hpersist : ∀ k t, mapLookup snap1 k = some t →
      ∃ u, mapLookup snap2 k = some u ∧ t ≤ u)
    (hfresh : ∀ f ∈ files, (processFile snap1 f).1 ≠ [] →
      ∃ u, mapLookup snap2 f.key = some u ∧ f.mtime ≤ u)
    (hfreshIdx : (upload_index_document snap1 idx).1 ≠ none →
      ∃ u, mapLookup snap2 INDEX_DOCUMENT = some u ∧ idx.mtime ≤ u) :
    allPuts (deployRun snap2 files idx) = [] := by
  rcases deployRun_ok snap1 files idx hok with ⟨hu1, hi1⟩
  have hall := (upload_files_ok_iff snap1 files).mp hu1
  have hputs2 : ∀ f ∈ files, (processFile snap2 f).1 = [] := fun f hf =>
    run2_file_no_put snap1 snap2 f (hall f hf) hpersist (hfresh f hf)
  have hfp : allFilePuts snap2 files = [] := allFilePuts_nil snap2 files hputs2
  have hip : (deployRun snap2 files idx).indexPut = none := by
    cases hres : (upload_files snap2 files).2 with
    | error es => exact deployRun_indexPut_of_error snap2 files idx es hres
    | ok u =>
      cases u
      rw [deployRun_indexPut_of_ok snap2 files idx hres]
      exact run2_index_no_put snap1 snap2 idx hi1 hpersist hfreshIdx
  unfold allPuts
  rw [deployRun_puts snap2 files idx, hfp, hip]
  rfl

/-- Concrete file used to instantiate the C8 theorem. -/
def fileC8 : LocalFile :=
  { key := "app.js", isFile := true, mtime := 3,
    statOk := true, bodyOk := true, mimeOk := true, putOk := true }

/-- Concrete index document used to instantiate the C8 theorem. -/
def idxC8 : IndexFile :=
  { mtime := 3, bodyOk := true, statOk := true, putOk := true }

/-- Witness for C8: after a successful first run from an empty snapshot,
a second run over the refreshed snapshot issues zero put calls. -/
theorem c8_idempotent_witness :
    allPuts (deployRun [("app.js", 5), ("index.html", 5)] [fileC8] idxC8) = [] := by
  apply c8_idempotent [] [("app.js", 5), ("index.html", 5)] [fileC8] idxC8
  · rfl
  · intro k t h
    simp [mapLookup] at h
  · intro f hf hne
    have hfe : f = fileC8 := by simpa using hf
    subst hfe
    exact ⟨5, by decide, by decide⟩
  · intro h
    exact ⟨5, by decide, by decide⟩
